import Mathlib

/-!
Shallow embedding of the `PluginBrowser` React component of the
AgentOS-Plugins repository (source: `src/unnamed/part_000`, lines 175-870).

The component's client-side state machine is modelled as a record
`BrowserState` together with pure transition functions, one per source
handler:

* `applyLoadResult`   — the mount effect (lines 582-601): resolution of the
  single `fetchPlugins()` call, guarded by the `cancelled` flag;
* `applySelect`       — `handleSelect` (lines 609-612);
* `applyCloseDetail`  — `closeDetail` (lines 650-652);
* `applyToggleStart` / `applyToggleResolve` — the two atomic halves of the
  async `handleToggle` (lines 629-647), split at its single `await`;
* `applyKeyDown`      — `handleKeyDown` (lines 655-727).

Asynchrony is modelled by the step relation `Step`: each continuation of an
`await` runs atomically (JavaScript's single-threaded cooperative
scheduling), and a pending `setPluginEnabled` request is an element of the
`pending` list carrying the values the `handleToggle` closure captured at
invocation time.  `Reachable` closes the transitions over the initial state.

The `iconErrors` set of the source is omitted: no claim concerns it and it
feeds no other state.
-/

namespace PluginBrowser

/-- Plugin record, from the `Plugin` interface (source lines 201-208). -/
structure Plugin where
  id : String
  name : String
  description : String
  enabled : Bool
  operations : List String
  utilities : List String
  deriving Repr, DecidableEq

/-- View mode, from `type ViewMode = 'icons' | 'list' | 'details'` (line 210). -/
inductive ViewMode where
  | icons
  | list
  | details
  deriving Repr, DecidableEq

/-- Keys the `handleKeyDown` switch distinguishes (lines 669-723); `other`
stands for every key that falls into the `default` branch. -/
inductive Key where
  | arrowRight
  | arrowLeft
  | arrowDown
  | arrowUp
  | home
  | endKey
  | enter
  | escape
  | other
  deriving Repr, DecidableEq

/-- Lower-casing of one code point, from the basic-latin mapping used to model
the default collation of `localeCompare`: `A`-`Z` (65-90) map 32 up. -/
def lowerChar (c : Char) : Char :=
  if 65 ≤ c.toNat ∧ c.toNat ≤ 90 then Char.ofNat (c.toNat + 32) else c

/-- Sort key of a plugin: its name, lower-cased code point by code point.
The source comparator (line 588) is `a.name.localeCompare(b.name)`, whose
default collation orders names case-insensitively; the embedding models it
as lexicographic comparison of the lower-cased code-point sequences. -/
def nameKey (p : Plugin) : List Char :=
  p.name.data.map lowerChar

/-- Comparator relation of the load-time sort (line 588):
`a.name.localeCompare(b.name) <= 0` in the model above. -/
def nameLe (a b : Plugin) : Prop :=
  nameKey a ≤ nameKey b

instance : DecidableRel nameLe :=
  fun a b => inferInstanceAs (Decidable (nameKey a ≤ nameKey b))

instance : IsTotal Plugin nameLe :=
  ⟨fun a b => le_total (nameKey a) (nameKey b)⟩

instance : IsTrans Plugin nameLe :=
  ⟨fun _ _ _ h h' => le_trans h h'⟩

/-- Sorting step of the load effect, line 588:
`[...data].sort((a, b) => a.name.localeCompare(b.name))`.  JavaScript's
`Array.prototype.sort` is stable, and for a total preorder comparator every
stable sort produces the same output, so Mathlib's (stable) insertion sort
is a faithful model. -/
def sortPlugins (data : List Plugin) : List Plugin :=
  data.insertionSort nameLe

/-- Result of `fetchPlugins()` (lines 225-232): on a non-2xx response it
throws `Failed to fetch plugins: ${statusText}`, otherwise it returns
`data.plugins || []` — a missing `plugins` field is an empty list. -/
def fetchPluginsResult (ok : Bool) (statusText : String)
    (pluginsField : Option (List Plugin)) : Except String (List Plugin) :=
  if ok then .ok (pluginsField.getD []) else
    .error ("Failed to fetch plugins: " ++ statusText)

/-- One in-flight `handleToggle` invocation: the values its closure captured
when it was called (lines 629-631) — the `plugin` argument, the computed
`newEnabled = !plugin.enabled`, and the `detailPlugin` value the `useCallback`
closure holds. -/
structure PendingToggle where
  plugin : Plugin
  newEnabled : Bool
  capturedDetail : Option Plugin
  deriving Repr, DecidableEq

/-- Component state: the `useState` hooks of `PluginBrowser`
(lines 571-578), plus the list of pending toggle requests. -/
structure BrowserState where
  plugins : List Plugin
  loading : Bool
  error : Option String
  selectedId : Option String
  viewMode : ViewMode
  updating : Option String
  detailPlugin : Option Plugin
  pending : List PendingToggle
  deriving Repr, DecidableEq

/-- Initial state of a mount (lines 571-578): empty set, `loading = true`,
nothing selected, no error, no mark, no panel. -/
def initState (vm : ViewMode) : BrowserState where
  plugins := []
  loading := true
  error := none
  selectedId := none
  viewMode := vm
  updating := none
  detailPlugin := none
  pending := []

/-- Resolution of the mount effect's `fetchPlugins()` call (lines 582-601).
If the effect was cleaned up first (`cancelled`), both branches are skipped;
otherwise success stores the sorted data and failure stores the message,
and either clears `loading`. -/
def applyLoadResult (s : BrowserState) (cancelled : Bool)
    (res : Except String (List Plugin)) : BrowserState :=
  if cancelled then s
  else
    match res with
    | .ok data => { s with plugins := sortPlugins data, loading := false }
    | .error msg => { s with error := some msg, loading := false }

/-- Selection on single click, `handleSelect` (lines 609-612): records the id
and binds the detail panel to the clicked record. -/
def applySelect (s : BrowserState) (p : Plugin) : BrowserState :=
  { s with selectedId := some p.id, detailPlugin := some p }

/-- Closing the detail panel, `closeDetail` (lines 650-652). -/
def applyCloseDetail (s : BrowserState) : BrowserState :=
  { s with detailPlugin := none }

/-- Values `handleToggle` captures at invocation (lines 629-631). -/
def toggleEntry (s : BrowserState) (p : Plugin) : PendingToggle where
  plugin := p
  newEnabled := !p.enabled
  capturedDetail := s.detailPlugin

/-- First atomic half of `handleToggle` (lines 629-631): set the single
`updating` slot to this id and issue the write; the request becomes pending. -/
def applyToggleStart (s : BrowserState) (p : Plugin) : BrowserState :=
  { s with
    updating := some p.id
    pending := s.pending ++ [toggleEntry s p] }

/-- Success commit of a toggle (lines 635-637): flip `enabled` on the records
whose id matches, positionally in place, leaving every other record itself. -/
def commitPlugins (plugins : List Plugin) (id : String) (newEnabled : Bool) :
    List Plugin :=
  plugins.map fun p => if p.id = id then { p with enabled := newEnabled } else p

/-- Second atomic half of `handleToggle` (lines 633-646): the continuation
after `await setPluginEnabled(...)`.  On success it commits the flip and, if
the captured `detailPlugin` has the toggled id, rebinds the panel to the
captured record with the new flag (lines 638-641); on failure it only logs.
Either way the `finally` clears the single `updating` slot (line 645), and
the request is no longer pending. -/
def applyToggleResolve (s : BrowserState) (t : PendingToggle)
    (success : Bool) : BrowserState :=
  if success then
    { s with
      plugins := commitPlugins s.plugins t.plugin.id t.newEnabled
      detailPlugin :=
        match t.capturedDetail with
        | some d =>
            if d.id = t.plugin.id then some { t.plugin with enabled := t.newEnabled }
            else s.detailPlugin
        | none => s.detailPlugin
      updating := none
      pending := s.pending.erase t }
  else
    { s with updating := none, pending := s.pending.erase t }

/-- Uninterfered `handleToggle` call: start immediately followed by the
resolution of its own request. -/
def toggleRound (s : BrowserState) (p : Plugin) (success : Bool) : BrowserState :=
  applyToggleResolve (applyToggleStart s p) (toggleEntry s p) success

/-- Model of `Array.prototype.findIndex`, with `-1` rendered as `none`
(line 658 `plugins.findIndex(p => p.id === selectedId)`). -/
def findIndexOpt (pred : Plugin → Bool) : List Plugin → Option Nat
  | [] => none
  | x :: xs => if pred x then some 0 else (findIndexOpt pred xs).map (· + 1)

/-- Effective index of `handleKeyDown`, lines 658-659: the index of
`selectedId`, or `0` when it is null or matches nothing (`currentIndex === -1`). -/
def effIndex (plugins : List Plugin) (selectedId : Option String) : Nat :=
  (findIndexOpt (fun p => some p.id == selectedId) plugins).getD 0

/-- Column count of the navigation arithmetic, line 662:
`viewMode === 'icons' ? 6 : 1`. -/
def columnsFor (vm : ViewMode) : Nat :=
  if vm = ViewMode.icons then 6 else 1

/-- Target index computed by the `handleKeyDown` switch (lines 662-724).
`rows = ⌈n / columns⌉` of line 663 is written `(n + columns - 1) / columns`.
JavaScript's `Math.max(idx - 1, 0)` coincides with truncated `Nat`
subtraction composed with `max · 0`, since `idx ≥ 0`.  Keys in the `default`
branch, and `Enter`/`Escape`, leave the index at `idx`. -/
def keyTargetIndex (plugins : List Plugin) (selectedId : Option String)
    (vm : ViewMode) (k : Key) : Nat :=
  let idx := effIndex plugins selectedId
  let n := plugins.length
  let columns := columnsFor vm
  let rows := (n + columns - 1) / columns
  let currentRow := idx / columns
  let currentCol := idx % columns
  match k with
  | .arrowRight => if vm = ViewMode.icons then min (idx + 1) (n - 1) else idx
  | .arrowLeft => if vm = ViewMode.icons then max (idx - 1) 0 else idx
  | .arrowDown =>
      if vm = ViewMode.icons then
        if currentRow < rows - 1 then
          min ((currentRow + 1) * columns + currentCol) (n - 1)
        else idx
      else min (idx + 1) (n - 1)
  | .arrowUp =>
      if vm = ViewMode.icons then
        if currentRow > 0 then (currentRow - 1) * columns + currentCol else idx
      else max (idx - 1) 0
  | .home => 0
  | .endKey => n - 1
  | .enter => idx
  | .escape => idx
  | .other => idx

/-- Keyboard handler `handleKeyDown` (lines 655-727).  An empty set returns
immediately (line 656); the `default` branch returns without selecting
(lines 722-723); `Escape` additionally closes an open panel (lines 716-721);
every handled key then runs `setSelectedId(plugins[newIndex].id)` (line 726).
The source indexes `plugins[newIndex]` unconditionally; the embedding
totalises the access with `[·]?`, and the bounds theorems below show the
`none` case never occurs, which is exactly the source's freedom from
`undefined.id` errors.  `Enter`'s `handleOpen` call only dispatches the
fire-and-forget open event (lines 615-626) and changes no modelled state. -/
def applyKeyDown (s : BrowserState) (k : Key) : BrowserState :=
  if s.plugins.isEmpty then s
  else if k = Key.other then s
  else
    { s with
      detailPlugin :=
        if k = Key.escape ∧ s.detailPlugin.isSome then none else s.detailPlugin
      selectedId :=
        (s.plugins[keyTargetIndex s.plugins s.selectedId s.viewMode k]?).map
          Plugin.id }

/-- View states in which the interactive surface is rendered: the loading,
error and empty early returns (lines 730-762) have fired for nobody, so the
toolbar, the items and the key handler exist. -/
def uiReady (s : BrowserState) : Prop :=
  s.loading = false ∧ s.error = none ∧ s.plugins ≠ []

instance : DecidablePred uiReady :=
  fun s =>
    inferInstanceAs (Decidable (s.loading = false ∧ s.error = none ∧ s.plugins ≠ []))

/-- One atomic scheduler step of the component.  User-interface steps require
the interactive surface to be rendered (`uiReady`); a toggle can start from a
table row (membership) or from the open panel, and only while its control is
not disabled, i.e. while the single `updating` slot does not hold this id
(lines 440, 850); a pending request resolves at any time. -/
inductive Step : BrowserState → BrowserState → Prop where
  | loadResolve {s : BrowserState} (cancelled : Bool)
      (res : Except String (List Plugin)) :
      s.loading = true → Step s (applyLoadResult s cancelled res)
  | select {s : BrowserState} (p : Plugin) :
      uiReady s → p ∈ s.plugins → Step s (applySelect s p)
  | keydown {s : BrowserState} (k : Key) :
      uiReady s → Step s (applyKeyDown s k)
  | setView {s : BrowserState} (vm : ViewMode) :
      uiReady s → Step s { s with viewMode := vm }
  | closePanel {s : BrowserState} :
      uiReady s → Step s (applyCloseDetail s)
  | toggleStart {s : BrowserState} (p : Plugin) :
      uiReady s → (p ∈ s.plugins ∨ s.detailPlugin = some p) →
      s.updating ≠ some p.id → Step s (applyToggleStart s p)
  | toggleResolve {s : BrowserState} (t : PendingToggle) (success : Bool) :
      t ∈ s.pending → Step s (applyToggleResolve s t success)

/-- States reachable from a fresh mount. -/
inductive Reachable : BrowserState → Prop where
  | init (vm : ViewMode) : Reachable (initState vm)
  | step {s s' : BrowserState} : Reachable s → Step s s' → Reachable s'

/-! ### Helper lemmas about the embedded functions -/

theorem findIndexOpt_lt {pred : Plugin → Bool} :
    ∀ {l : List Plugin} {i : Nat}, findIndexOpt pred l = some i → i < l.length := by
  intro l
  induction l with
  | nil => intro i h; simp [findIndexOpt] at h
  | cons x xs ih =>
    intro i h
    cases hx : pred x with
    | true =>
      simp [findIndexOpt, hx] at h
      simp [← h]
    | false =>
      simp [findIndexOpt, hx] at h
      obtain ⟨j, hj, rfl⟩ := h
      have := ih hj
      simp only [List.length_cons]
      omega

theorem findIndexOpt_get {pred : Plugin → Bool} :
    ∀ {l : List Plugin} {i : Nat} (h : findIndexOpt pred l = some i),
      pred (l.get ⟨i, findIndexOpt_lt h⟩) = true := by
  intro l
  induction l with
  | nil => intro i h; simp [findIndexOpt] at h
  | cons x xs ih =>
    intro i h
    cases hx : pred x with
    | true =>
      have hi : i = 0 := by simp [findIndexOpt, hx] at h; omega
      subst hi
      simpa using hx
    | false =>
      have h' : ∃ j, findIndexOpt pred xs = some j ∧ j + 1 = i := by
        simpa [findIndexOpt, hx] using h
      obtain ⟨j, hj, rfl⟩ := h'
      simpa using ih hj

theorem findIndexOpt_isSome_of_mem {pred : Plugin → Bool} {l : List Plugin}
    {q : Plugin} (hq : q ∈ l) (hpq : pred q = true) :
    (findIndexOpt pred l).isSome = true := by
  induction l with
  | nil => simp at hq
  | cons x xs ih =>
    cases hx : pred x with
    | true => simp [findIndexOpt, hx]
    | false =>
      rcases List.mem_cons.mp hq with rfl | hmem
      · exact absurd hpq (by simp [hx])
      · simp only [findIndexOpt, hx, Bool.false_eq_true, if_false, Option.isSome_map']
        exact ih hmem

theorem effIndex_lt {l : List Plugin} (h : l ≠ []) (sel : Option String) :
    effIndex l sel < l.length := by
  unfold effIndex
  cases hfi : findIndexOpt (fun p => some p.id == sel) l with
  | none =>
    simp only [Option.getD_none]
    exact List.length_pos.mpr h
  | some i =>
    simpa using findIndexOpt_lt hfi

theorem keyTargetIndex_lt {plugins : List Plugin} (hne : plugins ≠ [])
    (sel : Option String) (vm : ViewMode) (k : Key) :
    keyTargetIndex plugins sel vm k < plugins.length := by
  have hidx := effIndex_lt hne sel
  have hn := List.length_pos.mpr hne
  unfold keyTargetIndex
  cases k <;> cases vm <;>
    simp only [columnsFor, reduceIte] <;>
    first
      | omega
      | (split_ifs <;> omega)

theorem applyKeyDown_plugins (s : BrowserState) (k : Key) :
    (applyKeyDown s k).plugins = s.plugins := by
  unfold applyKeyDown
  split_ifs <;> rfl

theorem applyKeyDown_loading (s : BrowserState) (k : Key) :
    (applyKeyDown s k).loading = s.loading := by
  unfold applyKeyDown
  split_ifs <;> rfl

theorem applyKeyDown_error (s : BrowserState) (k : Key) :
    (applyKeyDown s k).error = s.error := by
  unfold applyKeyDown
  split_ifs <;> rfl

theorem applyKeyDown_pending (s : BrowserState) (k : Key) :
    (applyKeyDown s k).pending = s.pending := by
  unfold applyKeyDown
  split_ifs <;> rfl

theorem applyKeyDown_detail (s : BrowserState) (k : Key) :
    (applyKeyDown s k).detailPlugin = s.detailPlugin ∨
      (applyKeyDown s k).detailPlugin = none := by
  unfold applyKeyDown
  split_ifs <;> simp

theorem applyKeyDown_selectedId (s : BrowserState) (k : Key) :
    (applyKeyDown s k).selectedId = s.selectedId ∨
      ∃ i : Fin s.plugins.length,
        (applyKeyDown s k).selectedId = some (s.plugins.get i).id := by
  unfold applyKeyDown
  split_ifs with h1 h2 h3
  · exact Or.inl rfl
  · exact Or.inl rfl
  all_goals
    right
    have hne : s.plugins ≠ [] := by
      intro h; exact h1 (by simp [h])
    have hlt := keyTargetIndex_lt hne s.selectedId s.viewMode k
    exact ⟨⟨keyTargetIndex s.plugins s.selectedId s.viewMode k, hlt⟩,
      by simp [List.getElem?_eq_getElem hlt]⟩

/-- A handled key on a non-empty set selects exactly the plugin at the
computed target index. -/
theorem applyKeyDown_selectedId_eq {s : BrowserState} (hne : s.plugins ≠ [])
    (k : Key) (hk : k ≠ Key.other) :
    (applyKeyDown s k).selectedId =
      (s.plugins[keyTargetIndex s.plugins s.selectedId s.viewMode k]?).map
        Plugin.id := by
  unfold applyKeyDown
  rw [if_neg (by simpa using hne), if_neg hk]

theorem commitPlugins_map_id_name (l : List Plugin) (i : String) (b : Bool) :
    (commitPlugins l i b).map (fun p => (p.id, p.name)) =
      l.map (fun p => (p.id, p.name)) := by
  induction l with
  | nil => rfl
  | cons x xs ih =>
    simp only [commitPlugins, List.map_cons] at ih ⊢
    split_ifs <;> simp_all

theorem mem_commitPlugins_of_mem {l : List Plugin} {q : Plugin}
    (hq : q ∈ l) (i : String) (b : Bool) :
    ∃ q' ∈ commitPlugins l i b, q'.id = q.id := by
  by_cases hid : q.id = i
  · exact ⟨{ q with enabled := b }, List.mem_map.mpr ⟨q, hq, by simp [hid]⟩, rfl⟩
  · exact ⟨q, List.mem_map.mpr ⟨q, hq, by simp [hid]⟩, rfl⟩

/-! ### Reachability invariant -/

/-- Invariant of every reachable state: before the load resolves nothing is
selected, no panel is open and no toggle is pending; a non-null `selectedId`
always names an id present in the current set; an open detail panel — and a
pending toggle that captured an open panel — implies something is selected. -/
def Inv (s : BrowserState) : Prop :=
  (s.loading = true → s.selectedId = none ∧ s.detailPlugin = none ∧ s.pending = []) ∧
  (∀ x, s.selectedId = some x → ∃ p ∈ s.plugins, p.id = x) ∧
  (s.detailPlugin.isSome = true → s.selectedId.isSome = true) ∧
  (∀ t ∈ s.pending, t.capturedDetail.isSome = true → s.selectedId.isSome = true)

theorem step_inv {s s' : BrowserState} (h : Inv s) (hs : Step s s') : Inv s' := by
  obtain ⟨h1, h2, h3, h4⟩ := h
  cases hs with
  | loadResolve cancelled res hload =>
    obtain ⟨hsel, hdet, hpend⟩ := h1 hload
    cases cancelled with
    | true => exact ⟨h1, h2, h3, h4⟩
    | false =>
      cases res with
      | ok data =>
        refine ⟨by simp [applyLoadResult], ?_, ?_, ?_⟩
        · intro x hx; simp [applyLoadResult, hsel] at hx
        · intro hdp; simp [applyLoadResult, hdet] at hdp
        · intro t ht; simp [applyLoadResult, hpend] at ht
      | error msg =>
        refine ⟨by simp [applyLoadResult], ?_, ?_, ?_⟩
        · intro x hx
          simp only [applyLoadResult, reduceIte] at hx
          rw [hsel] at hx
          cases hx
        · intro hdp; simp [applyLoadResult, hdet] at hdp
        · intro t ht; simp [applyLoadResult, hpend] at ht
  | select p hui hmem =>
    refine ⟨?_, ?_, ?_, ?_⟩
    · intro hl; exact absurd hl (by simp [applySelect, hui.1])
    · intro x hx
      simp only [applySelect] at hx ⊢
      cases hx
      exact ⟨p, hmem, rfl⟩
    · intro _; simp [applySelect]
    · intro t ht _; simp [applySelect]
  | keydown k hui =>
    refine ⟨?_, ?_, ?_, ?_⟩
    · intro hl
      rw [applyKeyDown_loading] at hl
      exact absurd hl (by simp [hui.1])
    · intro x hx
      rw [applyKeyDown_plugins]
      rcases applyKeyDown_selectedId s k with hsel | ⟨i, hsel⟩
      · exact h2 x (hsel ▸ hx)
      · rw [hsel] at hx
        cases hx
        exact ⟨s.plugins.get i, List.get_mem s.plugins i.1 i.2, rfl⟩
    · intro hdp
      rcases applyKeyDown_selectedId s k with hsel | ⟨i, hsel⟩
      · rw [hsel]
        rcases applyKeyDown_detail s k with hd | hd
        · exact h3 (hd ▸ hdp)
        · rw [hd] at hdp; cases hdp
      · simp [hsel]
    · intro t ht hcap
      rw [applyKeyDown_pending] at ht
      rcases applyKeyDown_selectedId s k with hsel | ⟨i, hsel⟩
      · rw [hsel]; exact h4 t ht hcap
      · simp [hsel]
  | setView vm hui =>
    exact ⟨by intro hl; exact absurd hl (by simp [hui.1]), h2, h3, h4⟩
  | closePanel hui =>
    refine ⟨?_, h2, ?_, h4⟩
    · intro hl; exact absurd hl (by simp [applyCloseDetail, hui.1])
    · intro hdp; simp [applyCloseDetail] at hdp
  | toggleStart p hui hfrom hguard =>
    refine ⟨?_, h2, h3, ?_⟩
    · intro hl; exact absurd hl (by simp [applyToggleStart, hui.1])
    · intro t ht hcap
      simp only [applyToggleStart, List.mem_append, List.mem_singleton] at ht
      rcases ht with ht | rfl
      · exact h4 t ht hcap
      · exact h3 (by simpa [toggleEntry] using hcap)
  | toggleResolve t success hpend =>
    cases success with
    | false =>
      refine ⟨?_, h2, h3, ?_⟩
      · intro hl
        obtain ⟨hsel, hdet, hpe⟩ := h1 hl
        rw [hpe] at hpend
        cases hpend
      · intro t' ht' hcap
        exact h4 t' (List.mem_of_mem_erase ht') hcap
    | true =>
      refine ⟨?_, ?_, ?_, ?_⟩
      · intro hl
        obtain ⟨hsel, hdet, hpe⟩ := h1 hl
        rw [hpe] at hpend
        cases hpend
      · intro x hx
        simp only [applyToggleResolve, reduceIte] at hx ⊢
        obtain ⟨p, hp, hpid⟩ := h2 x hx
        obtain ⟨q, hq, hqid⟩ := mem_commitPlugins_of_mem hp t.plugin.id t.newEnabled
        exact ⟨q, hq, hqid.trans hpid⟩
      · intro hdp
        simp only [applyToggleResolve, reduceIte] at hdp ⊢
        cases hcap : t.capturedDetail with
        | none => rw [hcap] at hdp; exact h3 hdp
        | some d =>
          by_cases hdid : d.id = t.plugin.id
          · exact h4 t hpend (by simp [hcap])
          · rw [hcap] at hdp
            simp only [hdid, if_false, reduceIte] at hdp
            exact h3 hdp
      · intro t' ht' hcap
        simp only [applyToggleResolve, reduceIte] at ht' ⊢
        exact h4 t' (List.mem_of_mem_erase ht') hcap

theorem reachable_inv {s : BrowserState} (h : Reachable s) : Inv s := by
  induction h with
  | init vm =>
    refine ⟨?_, ?_, ?_, ?_⟩ <;> simp [initState]
  | step _ hs ih => exact step_inv ih hs

/-! ### More helper lemmas -/

theorem nameKey_commit (p : Plugin) (i : String) (b : Bool) :
    nameKey (if p.id = i then { p with enabled := b } else p) = nameKey p := by
  split_ifs <;> rfl

theorem commitPlugins_sorted {l : List Plugin} (h : l.Sorted nameLe)
    (i : String) (b : Bool) : (commitPlugins l i b).Sorted nameLe := by
  unfold commitPlugins
  rw [List.Sorted, List.pairwise_map]
  refine h.imp fun {a c} hac => ?_
  unfold nameLe at hac ⊢
  rw [nameKey_commit, nameKey_commit]
  exact hac

theorem commitPlugins_commitPlugins (l : List Plugin) {a b : String}
    (hab : a ≠ b) (ea eb : Bool) :
    commitPlugins (commitPlugins l a ea) b eb =
      l.map fun q =>
        if q.id = a then { q with enabled := ea }
        else if q.id = b then { q with enabled := eb } else q := by
  unfold commitPlugins
  rw [List.map_map]
  refine List.map_congr_left fun q _ => ?_
  simp only [Function.comp_apply]
  by_cases hqa : q.id = a
  · rw [if_pos hqa, if_pos hqa]
    exact if_neg fun hb => hab (hqa.symm.trans hb)
  · rw [if_neg hqa, if_neg hqa]

/-! ### The spec's reference navigation formula (for the refinement claim) -/

/-- Direction vocabulary of the spec's `move(direction)` operation (§4.2). -/
inductive MoveDir where
  | left
  | right
  | up
  | down
  | homeDir
  | endDir
  deriving Repr, DecidableEq

/-- Modelled from the spec's words (§4.2), for comparison with the code's
`keyTargetIndex`: with `idx` the index of `selectedId` (0 if not found),
`n` the set length, `columns = 6` in grid/icons mode and `1` otherwise,
`rows = ceil(n/columns)` (written `(n + columns - 1) / columns`),
`row = idx div columns`, `col = idx mod columns` — grid mode:
`left → max(idx-1,0)`, `right → min(idx+1,n-1)`,
`up → (row-1)*columns+col` when `row>0` else unchanged,
`down → min((row+1)*columns+col, n-1)` when `row<rows-1` else unchanged;
list/table mode: `left`/`right` unchanged, `up → max(idx-1,0)`,
`down → min(idx+1,n-1)`; `home → 0`, `end → n-1`. -/
def specMoveIndex (idx n : Nat) (vm : ViewMode) (d : MoveDir) : Nat :=
  let columns := if vm = ViewMode.icons then 6 else 1
  let rows := (n + columns - 1) / columns
  let row := idx / columns
  let col := idx % columns
  if vm = ViewMode.icons then
    match d with
    | .left => max (idx - 1) 0
    | .right => min (idx + 1) (n - 1)
    | .up => if row > 0 then (row - 1) * columns + col else idx
    | .down => if row < rows - 1 then min ((row + 1) * columns + col) (n - 1) else idx
    | .homeDir => 0
    | .endDir => n - 1
  else
    match d with
    | .left => idx
    | .right => idx
    | .up => max (idx - 1) 0
    | .down => min (idx + 1) (n - 1)
    | .homeDir => 0
    | .endDir => n - 1

/-- Keyboard key carrying each spec direction. -/
def dirToKey : MoveDir → Key
  | .left => .arrowLeft
  | .right => .arrowRight
  | .up => .arrowUp
  | .down => .arrowDown
  | .homeDir => .home
  | .endDir => .endKey

/-! ### Claim theorems -/

/-- C2: for every loaded plugin set, the in-memory order after load is
case-insensitive lexicographic ascending by name (`nameLe` sorted, a
permutation of the fetched data), and that order is preserved unchanged by
every subsequent toggle: the resolution of any toggle — successful or not —
keeps the `(id, name)` sequence of the records identical, so a successful
`setEnabled` never re-sorts or reorders the sequence, and sortedness is
preserved. -/
theorem load_sorted_and_toggle_preserves_order (data : List Plugin)
    (vm : ViewMode) (s : BrowserState) (t : PendingToggle) (success : Bool) :
    (applyLoadResult (initState vm) false (Except.ok data)).plugins =
        sortPlugins data ∧
    (sortPlugins data).Sorted nameLe ∧
    (sortPlugins data).Perm data ∧
    (applyToggleResolve s t success).plugins.map (fun p => (p.id, p.name)) =
      s.plugins.map (fun p => (p.id, p.name)) ∧
    (s.plugins.Sorted nameLe → (applyToggleResolve s t success).plugins.Sorted nameLe) := by
  refine ⟨rfl, List.sorted_insertionSort nameLe data,
    List.perm_insertionSort nameLe data, ?_, ?_⟩
  · cases success with
    | true => simp [applyToggleResolve, commitPlugins_map_id_name]
    | false => simp [applyToggleResolve]
  · intro hs
    cases success with
    | true => simpa [applyToggleResolve] using commitPlugins_sorted hs _ _
    | false => simpa [applyToggleResolve] using hs

/-- C2 witness: a concrete run of the conditional conjunct. -/
theorem load_sorted_and_toggle_preserves_order_witness :
    (applyToggleResolve (initState ViewMode.icons)
        { plugin :=
            { id := "a", name := "Alpha", description := "", enabled := false,
              operations := [], utilities := [] },
          newEnabled := true, capturedDetail := none } true).plugins.Sorted
      nameLe :=
  (load_sorted_and_toggle_preserves_order [] ViewMode.icons
    (initState ViewMode.icons) _ true).2.2.2.2 (by simp [initState])

/-- C3: `handleKeyDown` navigation is pure and total — on an empty set every
key is a no-op, and otherwise every key either leaves `selectedId` unchanged
or selects the id of the plugin at a valid index of the current set, so the
source's `plugins[newIndex].id` access never goes out of bounds and never
throws. -/
theorem move_total_and_safe (s : BrowserState) (k : Key) :
    (s.plugins = [] → applyKeyDown s k = s) ∧
    ((applyKeyDown s k).selectedId = s.selectedId ∨
      ∃ i : Fin s.plugins.length,
        (applyKeyDown s k).selectedId = some (s.plugins.get i).id) := by
  constructor
  · intro h
    unfold applyKeyDown
    rw [if_pos (by simp [h])]
  · exact applyKeyDown_selectedId s k

/-- C3 witness: on the empty initial set, a key press is a no-op. -/
theorem move_total_and_safe_witness :
    applyKeyDown (initState ViewMode.icons) Key.home = initState ViewMode.icons :=
  (move_total_and_safe (initState ViewMode.icons) Key.home).1 rfl

/-- C4: the code's keyboard-navigation index arithmetic (`keyTargetIndex`,
from `handleKeyDown` lines 662-724) coincides with the spec's reference
formula `specMoveIndex` on every direction, for every set, selection and
view mode. -/
theorem nav_matches_spec_formula (plugins : List Plugin)
    (sel : Option String) (vm : ViewMode) (d : MoveDir) :
    keyTargetIndex plugins sel vm (dirToKey d) =
      specMoveIndex (effIndex plugins sel) plugins.length vm d := by
  cases d <;> cases vm <;> rfl

/-- C7: a failing list load — modelled by `fetchPluginsResult` with a non-2xx
response — leaves the view errored with the transport error's message
surfaced verbatim, `loading` cleared, and the plugin set still empty; the
same holds for an arbitrary transport error message. -/
theorem load_failure_errored (vm : ViewMode) (statusText : String)
    (field : Option (List Plugin)) (msg : String) :
    (applyLoadResult (initState vm) false
        (fetchPluginsResult false statusText field)).error =
      some ("Failed to fetch plugins: " ++ statusText) ∧
    (applyLoadResult (initState vm) false
        (fetchPluginsResult false statusText field)).loading = false ∧
    (applyLoadResult (initState vm) false
        (fetchPluginsResult false statusText field)).plugins = [] ∧
    (applyLoadResult (initState vm) false (Except.error msg)).error = some msg ∧
    (applyLoadResult (initState vm) false (Except.error msg)).plugins = [] := by
  refine ⟨rfl, rfl, rfl, rfl, rfl⟩

/-- C8: once the activation's cleanup has set the `cancelled` flag, the
resolution of the load — success or failure alike — changes no state at
all: the result is discarded silently. -/
theorem cancelled_load_discarded (s : BrowserState)
    (res : Except String (List Plugin)) :
    applyLoadResult s true res = s := by
  simp [applyLoadResult]

/-! ### Concrete fixtures for witnesses and counterexamples -/

/-- Fixture plugin with id `a`. -/
def fixA : Plugin where
  id := "a"
  name := "Alpha"
  description := ""
  enabled := false
  operations := []
  utilities := []

/-- Fixture plugin with id `b`. -/
def fixB : Plugin where
  id := "b"
  name := "beta"
  description := ""
  enabled := true
  operations := []
  utilities := []

/-- Fixture state: `[fixA]` loaded in icon view with `fixA` selected and its
detail panel open. -/
def fixDetail : BrowserState :=
  applySelect (applyLoadResult (initState ViewMode.icons) false (Except.ok [fixA])) fixA

/-- Fixture state: `[fixA]` loaded in list view, nothing selected. -/
def fixNoSel : BrowserState :=
  applyLoadResult (initState ViewMode.list) false (Except.ok [fixA])

/-- C5: an uninterfered successful toggle on `p` commits `enabled` to the
desired value (`!p.enabled`) on the matching records in place — the plugin
list becomes a pointwise map, no re-fetch — every record with a different id
stays the very same value, and a detail panel bound to `p.id` is rebound
synchronously (in the same resolution step) to the updated copy, while a
panel bound to another id is untouched. -/
theorem toggle_success_commits_in_place (s : BrowserState) (p : Plugin) :
    (toggleRound s p true).plugins =
      s.plugins.map (fun q =>
        if q.id = p.id then { q with enabled := !p.enabled } else q) ∧
    (∀ q ∈ s.plugins, q.id ≠ p.id → q ∈ (toggleRound s p true).plugins) ∧
    (∀ d, s.detailPlugin = some d → d.id = p.id →
      (toggleRound s p true).detailPlugin = some { p with enabled := !p.enabled }) ∧
    (∀ d, s.detailPlugin = some d → d.id ≠ p.id →
      (toggleRound s p true).detailPlugin = s.detailPlugin) := by
  refine ⟨rfl, ?_, ?_, ?_⟩
  · intro q hq hne
    show q ∈ s.plugins.map fun r =>
      if r.id = p.id then { r with enabled := !p.enabled } else r
    exact List.mem_map.mpr ⟨q, hq, if_neg hne⟩
  · intro d hd hdid
    simp [toggleRound, applyToggleResolve, applyToggleStart, toggleEntry, hd, hdid]
  · intro d hd hdid
    simp [toggleRound, applyToggleResolve, applyToggleStart, toggleEntry, hd, hdid]

/-- C5 witness: toggling `fixA` while its panel is open rebinds the panel to
the enabled copy. -/
theorem toggle_success_commits_in_place_witness :
    (toggleRound fixDetail fixA true).detailPlugin =
      some { fixA with enabled := !fixA.enabled } :=
  (toggle_success_commits_in_place fixDetail fixA).2.2.1 fixA rfl rfl

/-- C6: a failed toggle leaves the plugin list — in particular the target's
`enabled` flag — the selection, the panel and the error state exactly as
they were, clears the `updating` mark, and removes the request without
reissuing it; and every call's resolution performs exactly one of commit
(success) or leave-unchanged (failure) on the list. -/
theorem toggle_failure_leaves_unchanged (s : BrowserState) (p : Plugin)
    (h : toggleEntry s p ∉ s.pending) :
    (toggleRound s p false).plugins = s.plugins ∧
    (toggleRound s p false).detailPlugin = s.detailPlugin ∧
    (toggleRound s p false).selectedId = s.selectedId ∧
    (toggleRound s p false).error = s.error ∧
    (toggleRound s p false).updating = none ∧
    (toggleRound s p false).pending = s.pending ∧
    (∀ success : Bool, (toggleRound s p success).plugins =
      if success then commitPlugins s.plugins p.id (!p.enabled) else s.plugins) := by
  refine ⟨rfl, rfl, rfl, rfl, rfl, ?_, ?_⟩
  · show (s.pending ++ [toggleEntry s p]).erase (toggleEntry s p) = s.pending
    rw [List.erase_append_right _ h, List.erase_cons_head, List.append_nil]
  · intro success
    cases success with
    | true => rfl
    | false => rfl

/-- C6 witness: a concrete failed toggle commits nothing and clears the mark. -/
theorem toggle_failure_leaves_unchanged_witness :
    (toggleRound fixDetail fixA false).plugins = fixDetail.plugins ∧
    (toggleRound fixDetail fixA false).updating = none :=
  ⟨(toggle_failure_leaves_unchanged fixDetail fixA (by decide)).1,
   (toggle_failure_leaves_unchanged fixDetail fixA (by decide)).2.2.2.2.1⟩

/-- C9: in every reachable state whose detail panel is open for a plugin id
present in the loaded set, pressing Escape closes the panel and leaves
`selectedId` exactly as it was before the key press. -/
theorem escape_closes_panel_keeps_selection {s : BrowserState}
    (hr : Reachable s) {d : Plugin} (hd : s.detailPlugin = some d)
    (_hmem : ∃ p ∈ s.plugins, p.id = d.id) :
    (applyKeyDown s Key.escape).detailPlugin = none ∧
    (applyKeyDown s Key.escape).selectedId = s.selectedId := by
  obtain ⟨h1, h2, h3, h4⟩ := reachable_inv hr
  have hsome : s.selectedId.isSome = true := h3 (by simp [hd])
  obtain ⟨x, hx⟩ := Option.isSome_iff_exists.mp hsome
  obtain ⟨p, hp, hpid⟩ := h2 x hx
  have hne : s.plugins ≠ [] := by
    intro hnil
    rw [hnil] at hp
    cases hp
  have hpred : (fun q => some q.id == s.selectedId) p = true := by
    simp [hx, hpid]
  have hfs :
      (findIndexOpt (fun q => some q.id == s.selectedId) s.plugins).isSome = true :=
    findIndexOpt_isSome_of_mem hp hpred
  obtain ⟨i, hi⟩ := Option.isSome_iff_exists.mp hfs
  have hlt := findIndexOpt_lt hi
  have hget := findIndexOpt_get hi
  have heff : effIndex s.plugins s.selectedId = i := by
    simp [effIndex, hi]
  have htarget :
      keyTargetIndex s.plugins s.selectedId s.viewMode Key.escape = i := by
    simp [keyTargetIndex, heff]
  have hgid : (s.plugins.get ⟨i, hlt⟩).id = x := by
    simp only [hx, beq_iff_eq, Option.some_inj] at hget
    exact hget
  constructor
  · unfold applyKeyDown
    rw [if_neg (by simpa using hne), if_neg (by decide)]
    simp [hd]
  · rw [applyKeyDown_selectedId_eq hne Key.escape (by decide), htarget,
      List.getElem?_eq_getElem hlt]
    rw [hx]
    simpa using hgid

/-- C9 witness: in the concrete reachable state `fixDetail`, Escape closes
the panel and keeps the selection. -/
theorem escape_closes_panel_keeps_selection_witness :
    (applyKeyDown fixDetail Key.escape).detailPlugin = none ∧
    (applyKeyDown fixDetail Key.escape).selectedId = fixDetail.selectedId :=
  escape_closes_panel_keeps_selection
    (Reachable.step
      (Reachable.step (Reachable.init ViewMode.icons)
        (Step.loadResolve false (Except.ok [fixA]) rfl))
      (Step.select fixA (by decide) (by decide)))
    rfl ⟨fixA, by decide, rfl⟩

/-- C10: on a non-empty set, when `selectedId` is null or matches no plugin
(the source's `findIndex` returns `-1` and the effective index falls back to
`0`), every handled key selects the id of some plugin of the set, and the
keys that are otherwise no-ops — Escape, and ArrowLeft/ArrowRight outside
icon mode — select the plugin at index `0`. -/
theorem keydown_no_selection_selects_member (s : BrowserState)
    (hne : s.plugins ≠ [])
    (hnf : findIndexOpt (fun p => some p.id == s.selectedId) s.plugins = none) :
    (∀ k, k ≠ Key.other →
      ∃ p ∈ s.plugins, (applyKeyDown s k).selectedId = some p.id) ∧
    (applyKeyDown s Key.escape).selectedId = s.plugins.head?.map Plugin.id ∧
    (s.viewMode ≠ ViewMode.icons →
      (applyKeyDown s Key.arrowLeft).selectedId =
          s.plugins.head?.map Plugin.id ∧
      (applyKeyDown s Key.arrowRight).selectedId =
          s.plugins.head?.map Plugin.id) := by
  have heff : effIndex s.plugins s.selectedId = 0 := by
    simp [effIndex, hnf]
  refine ⟨?_, ?_, ?_⟩
  · intro k hk
    have hlt := keyTargetIndex_lt hne s.selectedId s.viewMode k
    refine ⟨s.plugins.get ⟨_, hlt⟩, List.get_mem _ _ _, ?_⟩
    rw [applyKeyDown_selectedId_eq hne k hk, List.getElem?_eq_getElem hlt]
    simp
  · rw [applyKeyDown_selectedId_eq hne Key.escape (by decide)]
    have ht : keyTargetIndex s.plugins s.selectedId s.viewMode Key.escape = 0 := by
      simp [keyTargetIndex, heff]
    rw [ht, ← List.head?_eq_getElem?]
  · intro hvm
    constructor
    · rw [applyKeyDown_selectedId_eq hne Key.arrowLeft (by decide)]
      have ht :
          keyTargetIndex s.plugins s.selectedId s.viewMode Key.arrowLeft = 0 := by
        simp [keyTargetIndex, heff, hvm]
      rw [ht, ← List.head?_eq_getElem?]
    · rw [applyKeyDown_selectedId_eq hne Key.arrowRight (by decide)]
      have ht :
          keyTargetIndex s.plugins s.selectedId s.viewMode Key.arrowRight = 0 := by
        simp [keyTargetIndex, heff, hvm]
      rw [ht, ← List.head?_eq_getElem?]

/-- C10 witness: in list view with nothing selected, Escape selects the
first plugin. -/
theorem keydown_no_selection_selects_member_witness :
    (applyKeyDown fixNoSel Key.escape).selectedId =
      fixNoSel.plugins.head?.map Plugin.id :=
  (keydown_no_selection_selects_member fixNoSel (by decide) (by decide)).2.1

/-! ### C1: the per-id in-flight guard -/

/-- Fixture state: `[fixA, fixB]` loaded in details view. -/
def fixLoaded : BrowserState :=
  applyLoadResult (initState ViewMode.details) false (Except.ok [fixA, fixB])

/-- Fixture state: a toggle of `fixA` started, then — while it is still
pending — a toggle of `fixB` started. -/
def fixTwoStarts : BrowserState :=
  applyToggleStart (applyToggleStart fixLoaded fixA) fixB

/-- Fixture state: `fixTwoStarts` followed by a second toggle of `fixA`,
started while the first one is still pending (its control is enabled again
because the single `updating` slot now holds `b`). -/
def fixThreeStarts : BrowserState :=
  applyToggleStart fixTwoStarts fixA

/-- C1 counterexample: a reachable interleaving in which the toggle of `a`
is still in flight while the `updating` mark holds `b` instead of `a` — so a
pending call's own mark is not set — and a reachable continuation in which
two mutations for the id `a` are in flight at the same instant.  The checkbox
guard `disabled={updating === plugin.id}` (line 440) does not reject the
third start, because `updating` is a single global slot, not a per-id one. -/
theorem per_id_guard_counterexample :
    Reachable fixTwoStarts ∧
    (∃ t ∈ fixTwoStarts.pending,
      t.plugin.id = "a" ∧ fixTwoStarts.updating ≠ some "a") ∧
    Reachable fixThreeStarts ∧
    (fixThreeStarts.pending.filter fun t => t.plugin.id == "a").length = 2 := by
  have r0 : Reachable (initState ViewMode.details) := Reachable.init _
  have r1 : Reachable fixLoaded :=
    Reachable.step r0 (Step.loadResolve false (Except.ok [fixA, fixB]) rfl)
  have r2 : Reachable (applyToggleStart fixLoaded fixA) :=
    Reachable.step r1
      (Step.toggleStart fixA (by decide) (Or.inl (by decide)) (by decide))
  have r3 : Reachable fixTwoStarts :=
    Reachable.step r2
      (Step.toggleStart fixB (by decide) (Or.inl (by decide)) (by decide))
  have r4 : Reachable fixThreeStarts :=
    Reachable.step r3
      (Step.toggleStart fixA (by decide) (Or.inl (by decide)) (by decide))
  exact ⟨r3, ⟨toggleEntry fixLoaded fixA, by decide, by decide, by decide⟩,
    r4, by decide⟩

/-- Overlapping toggles of two plugins: start `pa`, start `pb` while `pa` is
pending, then both requests resolve successfully in order. -/
def overlapRun (s : BrowserState) (pa pb : Plugin) : BrowserState :=
  applyToggleResolve
    (applyToggleResolve (applyToggleStart (applyToggleStart s pa) pb)
      (toggleEntry s pa) true)
    (toggleEntry (applyToggleStart s pa) pb) true

/-- C1 amended: toggles on distinct ids that overlap both proceed and both
commit their own `enabled` flips correctly, and the mark is cleared once the
calls have resolved; but the in-flight mark is a single global `updating`
slot rather than a per-id one — while both calls are pending it holds only
the most recently started id — so the per-id mark discipline of the original
claim fails, as `per_id_guard_counterexample` shows. -/
theorem overlap_distinct_ids_both_commit (s : BrowserState) (pa pb : Plugin)
    (hne : pa.id ≠ pb.id) :
    (overlapRun s pa pb).plugins = s.plugins.map (fun q =>
      if q.id = pa.id then { q with enabled := !pa.enabled }
      else if q.id = pb.id then { q with enabled := !pb.enabled } else q) ∧
    (applyToggleStart (applyToggleStart s pa) pb).updating = some pb.id ∧
    (overlapRun s pa pb).updating = none := by
  refine ⟨?_, rfl, rfl⟩
  show commitPlugins (commitPlugins s.plugins pa.id (!pa.enabled)) pb.id
      (!pb.enabled) = _
  exact commitPlugins_commitPlugins s.plugins hne (!pa.enabled) (!pb.enabled)

/-- C1 amended witness: the concrete overlapping run on `fixLoaded` commits
both flips and ends with the mark cleared. -/
theorem overlap_distinct_ids_both_commit_witness :
    (overlapRun fixLoaded fixA fixB).plugins = fixLoaded.plugins.map (fun q =>
      if q.id = fixA.id then { q with enabled := !fixA.enabled }
      else if q.id = fixB.id then { q with enabled := !fixB.enabled } else q) ∧
    (overlapRun fixLoaded fixA fixB).updating = none :=
  ⟨(overlap_distinct_ids_both_commit fixLoaded fixA fixB (by decide)).1,
   (overlap_distinct_ids_both_commit fixLoaded fixA fixB (by decide)).2.2⟩

end PluginBrowser
